import Mathlib

/-!
Verification of the habit-persistence model pipeline driven by
`habit_persistence_interactive.ipynb`.  The notebook imports the numeric
solver from the module `habit_persistence_code2`, which is not part of the
repository snapshot; following the specification, the solver's entry points
(`solve_habit_persistence`, `habit_persistence_consumption_path`, `get_Sv`,
`solve_sv`, `get_SvBFy`, `habit_consumption_and_uncertainty_price`) are
modelled here from the specification's description of their behaviour, while
the parameter-sweep and interactive-indexing code is embedded directly from
the notebook cells.

Real numbers computed by the floating-point code are represented by
rationals; the numeric eigenvalue and residual data produced by the
library's eigen-decomposition routine (external numeric work) are inputs to
the modelled solver, which performs the two mandatory correctness checks on
them exactly as the specification requires.
-/

/-- Numerical tolerance used by the solver's correctness checks
(spec §8 suggests 1e-8). -/
def tol : ℚ := 1 / 100000000

/-- Modelled from the spec: the scalar structural parameters of
`habit_persistence_code2` (§3 StructuralParameters): habit share α,
habit decay ψ, elasticity of substitution η, discount rate δ,
capital productivity ρ, growth/persistence ν. -/
structure StructuralParameters where
  α : ℚ
  ψ : ℚ
  η : ℚ
  δ : ℚ
  ρ : ℚ
  ν : ℚ

/-- Modelled from the spec: the admissibility constraints of §6,
`0 ≤ e^{-ψ} < 1, η > 0, 0 ≤ α ≤ 1`.  Over the reals `0 ≤ e^{-ψ}` always
holds and `e^{-ψ} < 1 ↔ 0 < ψ`, so the check is expressed on the
parameters themselves (see the theorem relating it to `Real.exp`). -/
def admissible (p : StructuralParameters) : Prop :=
  0 < p.ψ ∧ 0 < p.η ∧ 0 ≤ p.α ∧ p.α ≤ 1

instance (p : StructuralParameters) : Decidable (admissible p) :=
  inferInstanceAs (Decidable (0 < p.ψ ∧ 0 < p.η ∧ 0 ≤ p.α ∧ p.α ≤ 1))

/-- Modelled from the spec: error taxonomy of §7, plus the length error of
§8 for the `T = 0` response-path boundary case. -/
inductive PipelineError where
  | invalidParameter
  | degenerateSystem
  | solverInvariantViolation
  | lengthError
deriving DecidableEq

/-- Modelled from the spec: the baseline solution produced by the solver
and consumed by the dynamics assembler and the robustness solver
(§3 DynamicSystem / §4.4, §4.5): the full state-space transition matrix
`𝔸_dyn` on the states `[K¹, H¹, X]`, the shock loading `𝔹`, the rows
`𝕊_u`, `[0,0,𝕊_y']`, `𝕊_y'𝔹_x`, `𝔽_y`, the discount factor `e^{-δ}` as
the numeric code computes it, the unit-shock initial impulse state, and the
linear output maps for the income and consumption responses. -/
structure BaselineSolution (n k : ℕ) where
  expNegδ : ℚ
  A_dyn : Matrix (Fin n) (Fin n) ℚ
  Bx : Matrix (Fin n) (Fin k) ℚ
  Su : Matrix (Fin 1) (Fin n) ℚ
  SyPad : Matrix (Fin 1) (Fin n) ℚ
  SyBx : Matrix (Fin 1) (Fin k) ℚ
  Fy : Matrix (Fin 1) (Fin k) ℚ
  x0 : Matrix (Fin n) (Fin 1) ℚ
  incomeMap : Matrix (Fin 1) (Fin n) ℚ
  consMap : Matrix (Fin 1) (Fin n) ℚ

/-- Modelled from the spec: the data handed to the stable-solution solver's
mandatory checks by the numeric eigen-decomposition routine of
`habit_persistence_code2` (§4.3): the generalized eigenvalues of the
unreduced pencil `(𝔸, 𝔻)`, the eigenvalues of the assembled transition
matrix `𝔹`, the algebraic residual matrix of the identity
`𝕃·𝔻 − [matching product]·𝕁`, and the assembled baseline solution. -/
structure Candidate (m n k : ℕ) where
  pencilEigs : List ℚ
  Beigs : List ℚ
  residual : Matrix (Fin m) (Fin m) ℚ
  sol : BaselineSolution n k

/-- Modelled from the spec: check (1) of §4.3 — every entry of the
algebraic residual matrix is zero within tolerance. -/
def residualOK {m : ℕ} (R : Matrix (Fin m) (Fin m) ℚ) : Prop :=
  ∀ i j, |R i j| ≤ tol

instance {m : ℕ} (R : Matrix (Fin m) (Fin m) ℚ) : Decidable (residualOK R) :=
  inferInstanceAs (Decidable (∀ i j, |R i j| ≤ tol))

/-- Modelled from the spec: the boundary-inclusive selection of the stable
generalized eigenvalues (§4.3 tie-break: an eigenvalue exactly on the
stability boundary belongs to the stable set). -/
def stableSubset (boundary : ℚ) : List ℚ → List ℚ
  | [] => []
  | l :: ls =>
      if |l| ≤ boundary then l :: stableSubset boundary ls
      else stableSubset boundary ls

/-- Insert into a sorted list of rationals (ascending). -/
def insertSorted (x : ℚ) : List ℚ → List ℚ
  | [] => [x]
  | y :: ys => if x ≤ y then x :: y :: ys else y :: insertSorted x ys

/-- Insertion sort on rationals, used to compare eigenvalue lists as
sorted lists (§8: compare sorted eigenvalue lists within tolerance). -/
def sortQ : List ℚ → List ℚ
  | [] => []
  | x :: xs => insertSorted x (sortQ xs)

/-- Two lists agree entrywise within tolerance (and have equal length) —
the multiset comparison of §8 realised on sorted lists. -/
def closeLists (xs ys : List ℚ) : Prop :=
  xs.length = ys.length ∧ ∀ pr ∈ xs.zip ys, |pr.1 - pr.2| ≤ tol

instance (xs ys : List ℚ) : Decidable (closeLists xs ys) :=
  inferInstanceAs
    (Decidable (xs.length = ys.length ∧ ∀ pr ∈ xs.zip ys, |pr.1 - pr.2| ≤ tol))

/-- Modelled from the spec: check (2) of §4.3 — the eigenvalues of the
assembled `𝔹` are exactly the stable subset of the pencil's generalized
eigenvalues (same multiset, matched within tolerance). -/
def eigsOK (boundary : ℚ) (pencilEigs Beigs : List ℚ) : Prop :=
  closeLists (sortQ Beigs) (sortQ (stableSubset boundary pencilEigs))

instance (boundary : ℚ) (pencilEigs Beigs : List ℚ) :
    Decidable (eigsOK boundary pencilEigs Beigs) :=
  inferInstanceAs
    (Decidable (closeLists (sortQ Beigs) (sortQ (stableSubset boundary pencilEigs))))

/-- Modelled from the spec: `solve_habit_persistence` of
`habit_persistence_code2` (§4.3, §6).  Admissibility is validated before
solving (violation fails with `InvalidParameter` and no numeric result is
produced); then the two mandatory correctness checks run on the numeric
candidate, and failure of either one signals `SolverInvariantViolation`
and aborts without returning any numeric result.  The stability boundary
is a configurable threshold (§9 open question). -/
def solve_habit_persistence {m n k : ℕ} (boundary : ℚ)
    (p : StructuralParameters) (c : Candidate m n k) :
    Except PipelineError (BaselineSolution n k) :=
  if admissible p then
    if residualOK c.residual ∧ eigsOK boundary c.pencilEigs c.Beigs then
      .ok c.sol
    else .error .solverInvariantViolation
  else .error .invalidParameter

/-- Executable inverse of a square rational matrix via the adjugate;
equals the true inverse whenever the determinant is nonzero. -/
def matInv {n : ℕ} (A : Matrix (Fin n) (Fin n) ℚ) : Matrix (Fin n) (Fin n) ℚ :=
  A.det⁻¹ • A.adjugate

/-- The matrix `I − e^{−δ}𝔸_dyn` inverted by the robustness solver
(§4.5). -/
def fixedPointMatrix {n k : ℕ} (sol : BaselineSolution n k) :
    Matrix (Fin n) (Fin n) ℚ :=
  1 - sol.expNegδ • sol.A_dyn

/-- Modelled from the spec: `get_Sv` of `habit_persistence_code2` (§4.5),
the closed-form solution
`𝕊_v' = (1−e^{−δ})𝕊_u'[I − e^{−δ}𝔸_dyn]⁻¹ + e^{−δ}[0,0,𝕊_y'][I − e^{−δ}𝔸_dyn]⁻¹`
of the linear fixed point for the value-sensitivity row vector. -/
def get_Sv {n k : ℕ} (sol : BaselineSolution n k) : Matrix (Fin 1) (Fin n) ℚ :=
  ((1 - sol.expNegδ) • sol.Su + sol.expNegδ • sol.SyPad) *
    matInv (fixedPointMatrix sol)

/-- The shock exposure `𝕊_v'𝔹 + 𝕊_y'𝔹_x` whose squared norm enters the
scalar fixed point for `s_v`. -/
def uncertaintyExposure {n k : ℕ} (sol : BaselineSolution n k) :
    Matrix (Fin 1) (Fin k) ℚ :=
  get_Sv sol * sol.Bx + sol.SyBx

/-- The fixed scalar `|𝕊_v'𝔹 + 𝕊_y'𝔹_x|²` of the `s_v` recursion. -/
def quadTerm {n k : ℕ} (sol : BaselineSolution n k) : ℚ :=
  ∑ j, (uncertaintyExposure sol 0 j) ^ 2

/-- Modelled from the spec: `solve_sv` of `habit_persistence_code2`
(§4.5), the closed-form solution of the scalar fixed point
`s_v = e^{−δ}[s_v − (ξ/2)q]` with `d = e^{−δ}` and fixed quadratic
term `q`. -/
def solve_sv (d ξ q : ℚ) : ℚ :=
  d * ξ * q / (2 * (d - 1))

/-- Modelled from the spec: `get_SvBFy` of `habit_persistence_code2`,
the uncertainty price vector `𝕊_v'𝔹 + 𝔽_y` (§4.5 and notebook text). -/
def get_SvBFy {n k : ℕ} (sol : BaselineSolution n k) :
    Matrix (Fin 1) (Fin k) ℚ :=
  get_Sv sol * sol.Bx + sol.Fy

/-- The robustness solution `(𝕊_v, s_v, priceVector)` (§3, §6). -/
structure RobustnessSolution (n k : ℕ) where
  Sv : Matrix (Fin 1) (Fin n) ℚ
  sv : ℚ
  priceVector : Matrix (Fin 1) (Fin k) ℚ

/-- Modelled from the spec: the robustness entry point
`robustPrice(BaselineSolution, ξ)` (§6), combining `get_Sv`, `solve_sv`
and `get_SvBFy`; a singular `[I − e^{−δ}𝔸_dyn]` signals
`SolverInvariantViolation` (§4.5). -/
def robustPrice {n k : ℕ} (sol : BaselineSolution n k) (ξ : ℚ) :
    Except PipelineError (RobustnessSolution n k) :=
  if (fixedPointMatrix sol).det = 0 then .error .solverInvariantViolation
  else
    .ok ⟨get_Sv sol, solve_sv sol.expNegδ ξ (quadTerm sol), get_SvBFy sol⟩

/-- Forward iteration of the assembled state recursion
`X_{t+1} = 𝔸_dyn X_t` started from the unit-shock impulse state (§4.4). -/
def iterState {n : ℕ} (A : Matrix (Fin n) (Fin n) ℚ) :
    ℕ → Matrix (Fin n) (Fin 1) ℚ → Matrix (Fin n) (Fin 1) ℚ
  | 0, x => x
  | t + 1, x => A * iterState A t x

/-- The length-`T` output sequence of a linear output map evaluated along
the iterated state recursion (§4.4). -/
def outputPath {n k : ℕ} (sol : BaselineSolution n k)
    (M : Matrix (Fin 1) (Fin n) ℚ) (T : ℕ) : List ℚ :=
  (List.range T).map fun t => (M * iterState sol.A_dyn t sol.x0) 0 0

/-- Modelled from the spec: `habit_persistence_consumption_path` of
`habit_persistence_code2` — the response-path entry point
`responsePath(BaselineSolution, T)` of §6, returning the income and
consumption sequences of length exactly `T`; `T = 0` is invalid and
fails with a length error (§8). -/
def habit_persistence_consumption_path {n k : ℕ}
    (sol : BaselineSolution n k) (T : ℕ) :
    Except PipelineError (List ℚ × List ℚ) :=
  if T = 0 then .error .lengthError
  else .ok (outputPath sol sol.incomeMap T, outputPath sol sol.consMap T)

/-- Modelled from the spec: `habit_consumption_and_uncertainty_price` of
`habit_persistence_code2` — the combined convenience call of §6 executing
the full pipeline for one parameter tuple. -/
def habit_consumption_and_uncertainty_price {m n k : ℕ} (boundary ξ : ℚ)
    (p : StructuralParameters) (c : Candidate m n k) (T : ℕ) :
    Except PipelineError ((List ℚ × List ℚ) × RobustnessSolution n k) :=
  match solve_habit_persistence boundary p c with
  | .error e => .error e
  | .ok sol =>
      match habit_persistence_consumption_path sol T with
      | .error e => .error e
      | .ok paths =>
          match robustPrice sol ξ with
          | .error e => .error e
          | .ok r => .ok (paths, r)

/-- The parallel sweep of the notebook (`pool.starmap` over parameter
tuples): every tuple is mapped independently to its own pipeline result,
keyed by the tuple itself. -/
def sweep {m n k : ℕ} (boundary ξ : ℚ)
    (ts : List (StructuralParameters × Candidate m n k × ℕ)) :
    List ((StructuralParameters × Candidate m n k × ℕ) ×
      Except PipelineError ((List ℚ × List ℚ) × RobustnessSolution n k)) :=
  ts.map fun t =>
    (t, habit_consumption_and_uncertainty_price boundary ξ t.1 t.2.1 t.2.2)

/-- The row-major cartesian product of four ranges, as iterated by
`itertools.product(alpha_range, -np.log(chi_range), epsilon_range, [T])`
in the notebook: the first range is outermost, the last innermost. -/
def product4 {α β γ σ : Type} (as : List α) (bs : List β) (cs : List γ)
    (ds : List σ) : List (α × β × γ × σ) :=
  as.flatMap fun a => bs.flatMap fun b => cs.flatMap fun c =>
    ds.map fun d => (a, b, c, d)

/-- The notebook's `pool.starmap(f, prd)`: apply `f` to the components of
every argument tuple of the iterable, in order. -/
def starmap {α β γ σ ρ : Type} (f : α → β → γ → σ → ρ)
    (l : List (α × β × γ × σ)) : List ρ :=
  l.map fun t => f t.1 t.2.1 t.2.2.1 t.2.2.2

/-- A concrete admissible parameter tuple (α, ψ, η of the notebook's
reference calibration, remaining scalars arbitrary admissible values). -/
def demoParams : StructuralParameters :=
  ⟨1 / 10, 8 / 5, 100, 1 / 100, 1 / 25, 1 / 100⟩

/-- A concrete baseline solution used to instantiate the theorems:
one endogenous state, one shock, `e^{-δ} = 1/2`. -/
def demoSol : BaselineSolution 1 1 :=
  ⟨1 / 2, !![0], !![1], !![2], !![4], !![1], !![0], !![1], !![1], !![3]⟩

/-- A concrete candidate whose residual is exactly zero and whose
`𝔹`-eigenvalue list matches the stable subset of the pencil eigenvalues
for the boundary 1. -/
def demoCand : Candidate 1 1 1 :=
  ⟨[1 / 2, 2], [1 / 2], !![0], demoSol⟩

/-- The robustness solution produced for `demoSol` at ξ = 0. -/
def demoRobust0 : RobustnessSolution 1 1 := ⟨!![3], 0, !![3]⟩

/-- The robustness solution produced for `demoSol` at ξ = 1. -/
def demoRobust1 : RobustnessSolution 1 1 := ⟨!![3], -8, !![3]⟩

/-- A concrete sweep tuple. -/
def demoTuple : StructuralParameters × Candidate 1 1 1 × ℕ :=
  (demoParams, demoCand, 3)

/-- A candidate whose residual matrix is visibly nonzero, so the first
mandatory check of §4.3 fails. -/
def badCand : Candidate 1 1 1 :=
  { demoCand with residual := !![1] }

/-- A baseline solution for which `[I − e^{−δ}𝔸_dyn]` is singular. -/
def badSol : BaselineSolution 1 1 :=
  { demoSol with expNegδ := 1, A_dyn := !![1] }

/-- A parameter tuple with ψ = 0, i.e. `e^{-ψ} = 1`, violating the
admissibility constraint `e^{-ψ} < 1`. -/
def badParams : StructuralParameters :=
  { demoParams with ψ := 0 }

/-- Concrete α grid for the indexing theorem's instantiation. -/
def wAs : List ℕ := [10]

/-- Concrete χ grid for the indexing theorem's instantiation. -/
def wBs : List ℕ := [20, 30]

/-- Concrete ϵ grid for the indexing theorem's instantiation. -/
def wCs : List ℕ := [40, 50, 60]

/-- The executable adjugate inverse is a left inverse when the determinant
is nonzero. -/
theorem matInv_mul {n : ℕ} (A : Matrix (Fin n) (Fin n) ℚ) (h : A.det ≠ 0) :
    matInv A * A = 1 := by
  unfold matInv
  rw [Matrix.smul_mul, Matrix.adjugate_mul, smul_smul, inv_mul_cancel₀ h, one_smul]

/-- The executable inverse of the identity matrix is the identity. -/
theorem matInv_one {n : ℕ} : matInv (1 : Matrix (Fin n) (Fin n) ℚ) = 1 := by
  unfold matInv
  simp

/-- The demo parameters satisfy the admissibility constraints. -/
theorem demo_admissible : admissible demoParams := by
  refine ⟨?_, ?_, ?_, ?_⟩ <;> norm_num [demoParams]

/-- The demo candidate's residual passes the zero-residual check. -/
theorem demo_residualOK : residualOK demoCand.residual := by
  intro i j
  fin_cases i <;> fin_cases j <;> norm_num [demoCand, tol]

/-- The demo candidate's eigenvalue lists pass the stability check. -/
theorem demo_eigsOK : eigsOK 1 demoCand.pencilEigs demoCand.Beigs := by
  have hs : stableSubset 1 demoCand.pencilEigs = [1 / 2] := by
    show stableSubset 1 [1 / 2, 2] = [1 / 2]
    simp only [stableSubset]
    rw [if_pos (by rw [abs_le]; norm_num), if_neg (by rw [abs_le]; norm_num)]
  refine ⟨?_, ?_⟩
  · rw [hs]
    rfl
  · rw [hs]
    intro pr hpr
    have hpr' : pr = ((1 : ℚ) / 2, (1 : ℚ) / 2) := by
      simpa [sortQ, insertSorted] using hpr
    rw [hpr']
    norm_num [tol]

/-- The solver succeeds on the demo input and returns the demo solution. -/
theorem demo_solve_ok :
    solve_habit_persistence 1 demoParams demoCand = .ok demoSol := by
  unfold solve_habit_persistence
  rw [if_pos demo_admissible, if_pos ⟨demo_residualOK, demo_eigsOK⟩]
  rfl

/-- For the demo solution the fixed-point matrix is the identity. -/
theorem demo_fpm : fixedPointMatrix demoSol = 1 := by
  ext i j
  fin_cases i
  fin_cases j
  simp [fixedPointMatrix, demoSol]

/-- The value-sensitivity row vector for the demo solution. -/
theorem demo_Sv : get_Sv demoSol = !![3] := by
  unfold get_Sv
  rw [demo_fpm, matInv_one, Matrix.mul_one]
  ext i j
  fin_cases i
  fin_cases j
  simp [demoSol]
  norm_num

/-- The shock exposure row vector for the demo solution. -/
theorem demo_exposure : uncertaintyExposure demoSol = !![4] := by
  unfold uncertaintyExposure
  rw [demo_Sv]
  ext i j
  fin_cases i
  fin_cases j
  simp [demoSol, Matrix.mul_apply]
  norm_num

/-- The fixed quadratic term for the demo solution. -/
theorem demo_quad : quadTerm demoSol = 16 := by
  unfold quadTerm
  rw [demo_exposure]
  simp [Fin.sum_univ_one]
  norm_num

/-- The uncertainty price vector for the demo solution. -/
theorem demo_SvBFy : get_SvBFy demoSol = !![3] := by
  unfold get_SvBFy
  rw [demo_Sv]
  ext i j
  fin_cases i
  fin_cases j
  simp [demoSol, Matrix.mul_apply]

/-- The robustness solver succeeds on the demo solution at ξ = 0. -/
theorem demo_robust0 : robustPrice demoSol 0 = .ok demoRobust0 := by
  unfold robustPrice
  rw [if_neg (by rw [demo_fpm, Matrix.det_one]; exact one_ne_zero)]
  have hsv : solve_sv demoSol.expNegδ 0 (quadTerm demoSol) = 0 := by
    simp [solve_sv]
  rw [demo_Sv, demo_SvBFy, hsv]
  rfl

/-- The robustness solver succeeds on the demo solution at ξ = 1. -/
theorem demo_robust1 : robustPrice demoSol 1 = .ok demoRobust1 := by
  unfold robustPrice
  rw [if_neg (by rw [demo_fpm, Matrix.det_one]; exact one_ne_zero)]
  have hsv : solve_sv demoSol.expNegδ 1 (quadTerm demoSol) = -8 := by
    rw [demo_quad]
    show solve_sv (1 / 2) 1 16 = -8
    norm_num [solve_sv]
  rw [demo_Sv, demo_SvBFy, hsv]
  rfl

/-- C1: for every admissible parameter tuple on which the stable-solution
solver succeeds, the multiset of eigenvalues of the assembled transition
matrix 𝔹 (compared as sorted lists) equals — same values, same
multiplicities, within numerical tolerance — the subset of generalized
eigenvalues of the unreduced pencil (𝔸, 𝔻) lying within the stability
boundary. -/
theorem stableEigenvalueMatch {m n k : ℕ} (boundary : ℚ)
    (p : StructuralParameters) (c : Candidate m n k)
    (sol : BaselineSolution n k)
    (h : solve_habit_persistence boundary p c = .ok sol) :
    (sortQ c.Beigs).length =
        (sortQ (stableSubset boundary c.pencilEigs)).length ∧
      ∀ pr ∈ (sortQ c.Beigs).zip (sortQ (stableSubset boundary c.pencilEigs)),
        |pr.1 - pr.2| ≤ tol := by
  unfold solve_habit_persistence at h
  split_ifs at h with h1 h2
  · exact h2.2

/-- C1 witness: the eigenvalue-matching property holds at the concrete
demo input on which the solver succeeds. -/
theorem stableEigenvalueMatch_witness :
    (sortQ demoCand.Beigs).length =
      (sortQ (stableSubset 1 demoCand.pencilEigs)).length :=
  (stableEigenvalueMatch 1 demoParams demoCand demoSol demo_solve_ok).1

/-- C2: for every parameter tuple on which the stable-solution solver
succeeds, every entry of the algebraic residual matrix of the stability
selection (𝕃·𝔻 minus the model's matching product involving 𝕁) is zero
within tolerance. -/
theorem residualIdentityZero {m n k : ℕ} (boundary : ℚ)
    (p : StructuralParameters) (c : Candidate m n k)
    (sol : BaselineSolution n k)
    (h : solve_habit_persistence boundary p c = .ok sol) :
    ∀ i j, |c.residual i j| ≤ tol := by
  unfold solve_habit_persistence at h
  split_ifs at h with h1 h2
  · exact h2.1

/-- C2 witness: the residual bound holds at the concrete demo input on
which the solver succeeds. -/
theorem residualIdentityZero_witness : |demoCand.residual 0 0| ≤ tol :=
  residualIdentityZero 1 demoParams demoCand demoSol demo_solve_ok 0 0

/-- C3: if either mandatory check of the stable-solution solver fails, the
solver signals SolverInvariantViolation and returns no numeric result; and
if the matrix-inversion step of the robustness solver meets a singular
[I − e^{−δ}𝔸_dyn], the robustness solver signals SolverInvariantViolation
and returns no numeric result. -/
theorem invariantViolationAborts :
    (∀ {m n k : ℕ} (boundary : ℚ) (p : StructuralParameters)
        (c : Candidate m n k),
        admissible p →
        ¬(residualOK c.residual ∧ eigsOK boundary c.pencilEigs c.Beigs) →
        solve_habit_persistence boundary p c =
          Except.error PipelineError.solverInvariantViolation) ∧
    (∀ {n k : ℕ} (sol : BaselineSolution n k) (ξ : ℚ),
        (fixedPointMatrix sol).det = 0 →
        robustPrice sol ξ =
          Except.error PipelineError.solverInvariantViolation) := by
  constructor
  · intro m n k boundary p c hp hch
    unfold solve_habit_persistence
    rw [if_pos hp, if_neg hch]
  · intro n k sol ξ hdet
    unfold robustPrice
    rw [if_pos hdet]

/-- C3 witness: the solver aborts on a candidate with a visibly nonzero
residual, and the robustness solver aborts on a singular fixed-point
matrix, at concrete inputs. -/
theorem invariantViolationAborts_witness :
    solve_habit_persistence 1 demoParams badCand =
        Except.error PipelineError.solverInvariantViolation ∧
      robustPrice badSol 0 =
        Except.error PipelineError.solverInvariantViolation := by
  constructor
  · refine invariantViolationAborts.1 1 demoParams badCand demo_admissible ?_
    intro hch
    have h1 := hch.1 0 0
    rw [show badCand.residual 0 0 = 1 from rfl] at h1
    norm_num [tol] at h1
  · refine invariantViolationAborts.2 badSol 0 ?_
    rw [Matrix.det_fin_one]
    show 1 - badSol.expNegδ * badSol.A_dyn 0 0 = 0
    norm_num [badSol, demoSol]

/-- C7: invoking the solver with a parameter set violating the
admissibility constraint — any ψ with e^{-ψ} ≥ 1 — fails with
InvalidParameter before solving, producing no numeric result for that
tuple. -/
theorem invalidPsiRejected {m n k : ℕ} (boundary : ℚ)
    (p : StructuralParameters) (c : Candidate m n k)
    (h : 1 ≤ Real.exp (-(p.ψ : ℝ))) :
    solve_habit_persistence boundary p c =
      Except.error PipelineError.invalidParameter := by
  have hψ : ¬ 0 < p.ψ := by
    intro hp
    have hcast : (0 : ℝ) < (p.ψ : ℝ) := by exact_mod_cast hp
    have hlt : Real.exp (-(p.ψ : ℝ)) < 1 := by
      calc Real.exp (-(p.ψ : ℝ)) < Real.exp 0 :=
            Real.exp_lt_exp.mpr (by linarith)
        _ = 1 := Real.exp_zero
    linarith
  have hna : ¬ admissible p := fun ha => hψ ha.1
  unfold solve_habit_persistence
  rw [if_neg hna]

/-- C7 witness: the parameter tuple with ψ = 0 (so e^{-ψ} = 1 ≥ 1) is
rejected with InvalidParameter. -/
theorem invalidPsiRejected_witness :
    solve_habit_persistence 1 badParams demoCand =
      Except.error PipelineError.invalidParameter :=
  invalidPsiRejected 1 badParams demoCand
    (by rw [show badParams.ψ = 0 from rfl]; simp)

/-- C4: for every baseline solution with [I − e^{−δ}𝔸_dyn] invertible, the
row vector 𝕊_v returned by the robustness solver (the closed form
(1−e^{−δ})𝕊_u'[I − e^{−δ}𝔸_dyn]⁻¹ + e^{−δ}[0,0,𝕊_y'][I − e^{−δ}𝔸_dyn]⁻¹)
satisfies the linear fixed-point equation
𝕊_v' = (1−e^{−δ})𝕊_u' + e^{−δ}[𝕊_v'𝔸_dyn + [0,0,𝕊_y']]. -/
theorem SvFixedPoint {n k : ℕ} (sol : BaselineSolution n k)
    (h : (fixedPointMatrix sol).det ≠ 0) :
    get_Sv sol =
      (1 - sol.expNegδ) • sol.Su +
        sol.expNegδ • (get_Sv sol * sol.A_dyn + sol.SyPad) := by
  have key : get_Sv sol * fixedPointMatrix sol =
      (1 - sol.expNegδ) • sol.Su + sol.expNegδ • sol.SyPad := by
    unfold get_Sv
    rw [Matrix.mul_assoc, matInv_mul _ h, Matrix.mul_one]
  have expand : get_Sv sol * fixedPointMatrix sol =
      get_Sv sol - sol.expNegδ • (get_Sv sol * sol.A_dyn) := by
    unfold fixedPointMatrix
    rw [Matrix.mul_sub, Matrix.mul_one, Matrix.mul_smul]
  rw [expand] at key
  rw [sub_eq_iff_eq_add] at key
  rw [smul_add]
  nth_rewrite 1 [key]
  abel

/-- C4 witness: the fixed-point equation holds at the concrete demo
solution, whose fixed-point matrix has determinant 1. -/
theorem SvFixedPoint_witness :
    get_Sv demoSol =
      (1 - demoSol.expNegδ) • demoSol.Su +
        demoSol.expNegδ • (get_Sv demoSol * demoSol.A_dyn + demoSol.SyPad) :=
  SvFixedPoint demoSol
    (by rw [demo_fpm, Matrix.det_one]; exact one_ne_zero)

/-- C5 counterexample: at the concrete completed baseline solution
demoSol (returned by the solver on demoCand), robustPrice at ξ = 0
returns the price vector 𝕊_v'𝔹 + 𝔽_y = [3], while 𝕊_u'𝔹 + 𝔽_y = [2];
the entries differ by 1, far outside tolerance, so the claim that the
ξ = 0 price vector equals 𝕊_u'𝔹 + 𝔽_y is false. -/
theorem xiZeroPriceCounterexample :
    solve_habit_persistence 1 demoParams demoCand = .ok demoSol ∧
      robustPrice demoSol 0 = .ok demoRobust0 ∧
      ¬ |demoRobust0.priceVector 0 0 -
          (demoSol.Su * demoSol.Bx + demoSol.Fy) 0 0| ≤ tol := by
  refine ⟨demo_solve_ok, demo_robust0, ?_⟩
  have h1 : demoRobust0.priceVector 0 0 = 3 := by
    show (!![(3 : ℚ)]) 0 0 = 3
    simp
  have h2 : (demoSol.Su * demoSol.Bx + demoSol.Fy) 0 0 = 2 := by
    show (!![(2 : ℚ)] * !![(1 : ℚ)] + !![(0 : ℚ)]) 0 0 = 2
    simp [Matrix.mul_apply]
  rw [h1, h2]
  norm_num [tol]

/-- C5 amended: calling robustPrice with ξ = 0 on a completed baseline
solution yields s_v = 0 (no ambiguity penalty term contributes), the
value-sensitivity row 𝕊_v solving the undamped fixed point, and the
price vector 𝕊_v'𝔹 + 𝔽_y — which moreover does not depend on ξ at
all. -/
theorem xiZeroPrice {n k : ℕ} (sol : BaselineSolution n k)
    (r : RobustnessSolution n k)
    (h : robustPrice sol 0 = .ok r) :
    r.sv = 0 ∧ r.Sv = get_Sv sol ∧
      r.priceVector = get_Sv sol * sol.Bx + sol.Fy ∧
      ∀ (ξ : ℚ) (r' : RobustnessSolution n k),
        robustPrice sol ξ = .ok r' → r'.priceVector = r.priceVector := by
  unfold robustPrice at h
  split_ifs at h with hdet
  rw [Except.ok.injEq] at h
  subst h
  refine ⟨?_, rfl, rfl, ?_⟩
  · show solve_sv sol.expNegδ 0 (quadTerm sol) = 0
    simp [solve_sv]
  · intro ξ r' h'
    unfold robustPrice at h'
    rw [if_neg hdet, Except.ok.injEq] at h'
    subst h'
    rfl

/-- C5 amended witness: at the concrete demo solution and ξ = 0, s_v is
zero and the price vector is 𝕊_v'𝔹 + 𝔽_y. -/
theorem xiZeroPrice_witness :
    demoRobust0.sv = 0 ∧
      demoRobust0.priceVector = get_Sv demoSol * demoSol.Bx + demoSol.Fy := by
  have h := xiZeroPrice demoSol demoRobust0 demo_robust0
  exact ⟨h.1, h.2.2.1⟩

/-- C6: for every completed baseline solution with e^{−δ} ≠ 1 and every
ξ, the scalar s_v returned by the robustness solver satisfies the
fixed-point equation s_v = e^{−δ}[s_v − (ξ/2)|𝕊_v'𝔹 + 𝕊_y'𝔹_x|²] and is
the unique solution of that equation given the fixed quadratic term. -/
theorem svFixedPoint {n k : ℕ} (sol : BaselineSolution n k) (ξ : ℚ)
    (r : RobustnessSolution n k) (hd : sol.expNegδ ≠ 1)
    (h : robustPrice sol ξ = .ok r) :
    r.sv = sol.expNegδ * (r.sv - ξ / 2 * quadTerm sol) ∧
      ∀ s : ℚ, s = sol.expNegδ * (s - ξ / 2 * quadTerm sol) → s = r.sv := by
  unfold robustPrice at h
  split_ifs at h with hdet
  rw [Except.ok.injEq] at h
  subst h
  show solve_sv sol.expNegδ ξ (quadTerm sol) =
      sol.expNegδ * (solve_sv sol.expNegδ ξ (quadTerm sol) -
        ξ / 2 * quadTerm sol) ∧
    ∀ s : ℚ, s = sol.expNegδ * (s - ξ / 2 * quadTerm sol) →
      s = solve_sv sol.expNegδ ξ (quadTerm sol)
  have hsub : sol.expNegδ - 1 ≠ 0 := sub_ne_zero.mpr hd
  constructor
  · unfold solve_sv
    field_simp
    ring
  · intro s hfix
    unfold solve_sv
    have h2 : 2 * (sol.expNegδ - 1) ≠ 0 := mul_ne_zero two_ne_zero hsub
    rw [eq_div_iff h2]
    linear_combination (-2 : ℚ) * hfix

/-- C6 witness: at the concrete demo solution and ξ = 1 the returned
s_v = −8 satisfies the scalar fixed point with e^{−δ} = 1/2 and
quadratic term 16. -/
theorem svFixedPoint_witness :
    demoRobust1.sv =
      demoSol.expNegδ * (demoRobust1.sv - 1 / 2 * quadTerm demoSol) :=
  (svFixedPoint demoSol 1 demoRobust1
    (by show (1 : ℚ) / 2 ≠ 1; norm_num) demo_robust1).1

/-- C8: the response-path entry point returns, for every T ≥ 1, income
and consumption sequences of length exactly T; for T = 1 each sequence is
the single period-0 impulse value; and for T = 0 it fails with a length
error instead of returning sequences. -/
theorem responsePathLengths {n k : ℕ} (sol : BaselineSolution n k)
    (T : ℕ) :
    (0 < T →
      habit_persistence_consumption_path sol T =
        .ok (outputPath sol sol.incomeMap T, outputPath sol sol.consMap T) ∧
      (outputPath sol sol.incomeMap T).length = T ∧
      (outputPath sol sol.consMap T).length = T) ∧
    habit_persistence_consumption_path sol 1 =
      .ok ([(sol.incomeMap * sol.x0) 0 0], [(sol.consMap * sol.x0) 0 0]) ∧
    habit_persistence_consumption_path sol 0 =
      Except.error PipelineError.lengthError := by
  refine ⟨fun hT => ⟨?_, ?_, ?_⟩, ?_, ?_⟩
  · unfold habit_persistence_consumption_path
    rw [if_neg (Nat.pos_iff_ne_zero.mp hT)]
  · simp [outputPath]
  · simp [outputPath]
  · unfold habit_persistence_consumption_path
    rw [if_neg one_ne_zero]
    have h1 : ∀ M : Matrix (Fin 1) (Fin n) ℚ,
        outputPath sol M 1 = [(M * sol.x0) 0 0] := by
      intro M
      have hr : List.range 1 = [0] := rfl
      simp [outputPath, hr, iterState]
    rw [h1, h1]
  · unfold habit_persistence_consumption_path
    rw [if_pos rfl]

/-- C8 witness: at the concrete demo solution and T = 3 the call succeeds
with two length-3 sequences. -/
theorem responsePathLengths_witness :
    habit_persistence_consumption_path demoSol 3 =
      .ok (outputPath demoSol demoSol.incomeMap 3,
        outputPath demoSol demoSol.consMap 3) ∧
    (outputPath demoSol demoSol.incomeMap 3).length = 3 ∧
    (outputPath demoSol demoSol.consMap 3).length = 3 :=
  (responsePathLengths demoSol 3).1 (by norm_num)

/-- C9: the pipeline is a pure function of its argument tuple: in any
sweep, the result recorded with a tuple is exactly the pipeline applied
to that tuple (independent of ordering and of sibling tuples), and
permuting the tuple list merely permutes the keyed results. -/
theorem sweepDeterministic :
    (∀ {m n k : ℕ} (boundary ξ : ℚ)
        (ts : List (StructuralParameters × Candidate m n k × ℕ))
        (t : StructuralParameters × Candidate m n k × ℕ)
        (r : Except PipelineError
          ((List ℚ × List ℚ) × RobustnessSolution n k)),
        (t, r) ∈ sweep boundary ξ ts →
        r = habit_consumption_and_uncertainty_price boundary ξ
          t.1 t.2.1 t.2.2) ∧
    (∀ {m n k : ℕ} (boundary ξ : ℚ)
        (ts ts' : List (StructuralParameters × Candidate m n k × ℕ)),
        ts.Perm ts' →
        (sweep boundary ξ ts).Perm (sweep boundary ξ ts')) := by
  constructor
  · intro m n k boundary ξ ts t r h
    unfold sweep at h
    rcases List.mem_map.1 h with ⟨t', _, heq⟩
    have h1 : t' = t := congrArg Prod.fst heq
    have h2 : habit_consumption_and_uncertainty_price boundary ξ
        t'.1 t'.2.1 t'.2.2 = r := congrArg Prod.snd heq
    rw [← h2, h1]
  · intro m n k boundary ξ ts ts' hperm
    exact hperm.map _

/-- C9 witness: in the singleton sweep of the demo tuple, the recorded
result is the pipeline value of the demo tuple, and the sweep of the
list is permutation-stable. -/
theorem sweepDeterministic_witness :
    habit_consumption_and_uncertainty_price 1 0 demoParams demoCand 3 =
      habit_consumption_and_uncertainty_price 1 0
        demoTuple.1 demoTuple.2.1 demoTuple.2.2 ∧
    (sweep 1 0 [demoTuple]).Perm (sweep 1 0 [demoTuple]) :=
  ⟨sweepDeterministic.1 1 0 [demoTuple] demoTuple
      (habit_consumption_and_uncertainty_price 1 0 demoParams demoCand 3)
      (List.mem_singleton.mpr rfl),
    sweepDeterministic.2 1 0 [demoTuple] [demoTuple] (List.Perm.refl _)⟩

/-- Length of a flatMap whose blocks all have the same length. -/
theorem flatMapConstLength {α β : Type} (f : α → List β) (L : ℕ)
    (hf : ∀ a, (f a).length = L) (as : List α) :
    (as.flatMap f).length = as.length * L := by
  induction as with
  | nil => simp
  | cons a as ih =>
    rw [List.flatMap_cons, List.length_append, hf, ih, List.length_cons]
    ring

/-- Optional element of a flatMap with constant block length at a
row-major index: block `i`, offset `j`. -/
theorem flatMapConstGetElem {α β : Type} (f : α → List β) (L : ℕ)
    (hf : ∀ a, (f a).length = L) :
    ∀ (as : List α) (i j : ℕ) (hi : i < as.length), j < L →
      (as.flatMap f)[j + i * L]? = (f (as.get ⟨i, hi⟩))[j]? := by
  intro as
  induction as with
  | nil => intro i j hi _; exact absurd hi (by simp)
  | cons a as ih =>
    intro i j hi hj
    match i with
    | 0 =>
      rw [List.flatMap_cons]
      rw [show j + 0 * L = j from by omega]
      exact List.getElem?_append_left (by rw [hf]; exact hj)
    | i + 1 =>
      rw [List.flatMap_cons]
      rw [show j + (i + 1) * L = j + i * L + L from by ring]
      rw [List.getElem?_append_right (by rw [hf]; exact Nat.le_add_left L (j + i * L))]
      rw [hf, Nat.add_sub_cancel]
      rw [List.get_cons_succ]
      exact ih i j (by simpa using hi) hj

/-- A flatMap of singleton blocks is a map. -/
theorem flatMapSingleton {α β : Type} (g : α → β) (l : List α) :
    (l.flatMap fun x => [g x]) = l.map g := by
  induction l with
  | nil => rfl
  | cons a l ih =>
    rw [List.flatMap_cons, ih]
    rfl

/-- The row-major flattened index lies within the grid. -/
theorem rowMajorIndexLt (ic ib lc lb : ℕ) (hc : ic < lc) (hb : ib < lb) :
    ic + ib * lc < lb * lc :=
  calc ic + ib * lc < lc + ib * lc := Nat.add_lt_add_right hc _
    _ = (ib + 1) * lc := by ring
    _ ≤ lb * lc := Nat.mul_le_mul_right _ hb

/-- Optional element of the four-range row-major product with a singleton
last range, at the flattened index used by the notebook. -/
theorem product4SingleGetElem {α β γ σ : Type} (as : List α) (bs : List β)
    (cs : List γ) (d : σ) (ia ib ic lb lc : ℕ)
    (hlb : bs.length = lb) (hlc : cs.length = lc)
    (ha : ia < as.length) (hb : ib < lb) (hc : ic < lc) :
    (product4 as bs cs [d])[ic + ib * lc + ia * (lb * lc)]? =
      some (as.get ⟨ia, ha⟩, bs.get ⟨ib, by omega⟩,
        cs.get ⟨ic, by omega⟩, d) := by
  subst hlb
  subst hlc
  have hrw : product4 as bs cs [d] =
      as.flatMap fun a => bs.flatMap fun b =>
        cs.map fun c => (a, b, c, d) := by
    unfold product4
    simp only [List.map_cons, List.map_nil]
    simp only [flatMapSingleton]
  have hinner : ∀ (a : α) (b : β),
      ((cs.map fun c => (a, b, c, d)).length) = cs.length := by
    intro a b
    exact List.length_map cs _
  have hmid : ∀ a : α,
      ((bs.flatMap fun b => cs.map fun c => (a, b, c, d)).length) =
        bs.length * cs.length := by
    intro a
    exact flatMapConstLength _ cs.length (hinner a) bs
  rw [hrw]
  rw [flatMapConstGetElem _ (bs.length * cs.length)
    (fun a => hmid a) as ia (ic + ib * cs.length) ha
    (rowMajorIndexLt ic ib cs.length bs.length hc hb)]
  rw [flatMapConstGetElem _ cs.length (hinner _) bs ib ic hb hc]
  rw [List.getElem?_map]
  rw [List.getElem?_eq_getElem hc]
  rw [List.get_eq_getElem]
  rfl

/-- C10: in the notebook's interactive update function, the flattened
index idx = idx_ϵ + idx_χ·len_ϵ + idx_α·(len_χ·len_ϵ) selects from the
starmap result list exactly the entry computed for the argument tuple
(α, −log χ, ϵ, T), because itertools.product iterates in row-major order
with alpha_range outermost (g models the −log applied to the χ range). -/
theorem updateIndexSelects {α β β' γ ρ : Type} (f : α → β → γ → ℕ → ρ)
    (g : β' → β) (as : List α) (bs : List β') (cs : List γ)
    (T ia ib ic : ℕ) (ha : ia < as.length) (hb : ib < bs.length)
    (hc : ic < cs.length)
    (h : ic + ib * cs.length + ia * (bs.length * cs.length) <
      (starmap f (product4 as (bs.map g) cs [T])).length) :
    (starmap f (product4 as (bs.map g) cs [T])).get
        ⟨ic + ib * cs.length + ia * (bs.length * cs.length), h⟩ =
      f (as.get ⟨ia, ha⟩) (g (bs.get ⟨ib, hb⟩)) (cs.get ⟨ic, hc⟩) T := by
  have hlm : (bs.map g).length = bs.length := List.length_map bs g
  have h1 : (starmap f (product4 as (bs.map g) cs [T]))[ic + ib * cs.length +
      ia * (bs.length * cs.length)]? =
      some ((starmap f (product4 as (bs.map g) cs [T])).get
        ⟨ic + ib * cs.length + ia * (bs.length * cs.length), h⟩) := by
    rw [List.getElem?_eq_getElem h]
    rw [List.get_eq_getElem]
  have h2 : (starmap f (product4 as (bs.map g) cs [T]))[ic + ib * cs.length +
      ia * (bs.length * cs.length)]? =
      some (f (as.get ⟨ia, ha⟩) (g (bs.get ⟨ib, hb⟩)) (cs.get ⟨ic, hc⟩) T) := by
    unfold starmap
    rw [List.getElem?_map]
    rw [product4SingleGetElem as (bs.map g) cs T ia ib ic bs.length cs.length
      hlm rfl ha hb hc]
    rw [Option.map_some']
    have hg : (bs.map g).get ⟨ib, by omega⟩ = g (bs.get ⟨ib, hb⟩) := by
      rw [List.get_eq_getElem, List.get_eq_getElem, List.getElem_map]
    rw [hg]
  have h3 := h1.symm.trans h2
  exact Option.some.inj h3

/-- C10 witness: on the concrete grids wAs, wBs, wCs with T = 7 and the
index (ia, ib, ic) = (0, 1, 2), the flattened index selects the entry for
(wAs[0], g wBs[1], wCs[2], 7) with g the successor map. -/
theorem updateIndexSelects_witness :
    (starmap (fun a b c t => (a, b, c, t))
        (product4 wAs (wBs.map fun b => b + 1) wCs [7])).get
        ⟨2 + 1 * wCs.length + 0 * (wBs.length * wCs.length), by decide⟩ =
      (wAs.get ⟨0, by decide⟩, wBs.get ⟨1, by decide⟩ + 1,
        wCs.get ⟨2, by decide⟩, 7) :=
  updateIndexSelects (fun a b c t => (a, b, c, t)) (fun b => b + 1)
    wAs wBs wCs 7 0 1 2 (by decide) (by decide) (by decide) (by decide)
